import Mathlib

/-!
# Verification of the biorhythm bot core (`src/biorhythm.py`)

Shallow embedding of the date parser, the biorhythm engine, the text
renderer and the command handlers of `biorhythm.py`, together with proofs
of the specification's claims about them.

Conventions of the embedding:
* Python `datetime.date` becomes the structure `CalDate`; date subtraction
  `(a - b).days` is `dateSub`, the difference of proleptic-Gregorian
  ordinals exactly as CPython's `date.toordinal` computes them.
* `math.sin` on IEEE doubles is idealised as `Real.sin`; `round(x, 2)` is
  `round2`, rounding to an integer number of hundredths.
* Readings produced by the engine are always whole hundredths, so the
  renderer (which in Python prints the two-decimal float with `str`) is
  embedded on integers counting hundredths (`BioCenti`).
* `datetime.strptime` for the two concrete formats `%d.%m.%Y` and
  `%Y-%m-%d` is embedded as `parseDMY` / `parseYMD`, reproducing CPython's
  `_strptime` regular expressions for `%d` `%m` `%Y` (day and month may be
  one or two digits, year exactly four) followed by the constructor's
  calendar-validity check.
-/

/-! ## Calendar dates -/

/-- A proleptic Gregorian year/month/day triple (Python `datetime.date`). -/
structure CalDate where
  year : Nat
  month : Nat
  day : Nat
deriving DecidableEq, Repr

/-- Gregorian leap-year rule, as in CPython's `datetime._is_leap`. -/
def isLeap (y : Nat) : Bool :=
  y % 4 = 0 && (y % 100 ≠ 0 || y % 400 = 0)

/-- Length of month `m` of year `y` (CPython `datetime._days_in_month`). -/
def daysInMonth (y m : Nat) : Nat :=
  if m = 2 then (if isLeap y then 29 else 28)
  else if m = 4 || m = 6 || m = 9 || m = 11 then 30
  else 31

/-- Validity test of the `datetime.date` constructor: year in 1..9999,
month in 1..12, day in 1..days-in-month. -/
def validDate (dt : CalDate) : Bool :=
  1 ≤ dt.year && dt.year ≤ 9999 && 1 ≤ dt.month && dt.month ≤ 12 &&
    1 ≤ dt.day && dt.day ≤ daysInMonth dt.year dt.month

/-- Days in the full months preceding month `m` of year `y`
(CPython `datetime._days_before_month`). -/
def daysBeforeMonth (y m : Nat) : Nat :=
  [0, 31, 59, 90, 120, 151, 181, 212, 243, 273, 304, 334].getD (m - 1) 0 +
    (if 2 < m && isLeap y then 1 else 0)

/-- Proleptic Gregorian ordinal of a date, with `0001-01-01` ↦ `1`
(CPython `date.toordinal`). -/
def toOrdinal (dt : CalDate) : Nat :=
  let py := dt.year - 1
  365 * py + py / 4 - py / 100 + py / 400 + daysBeforeMonth dt.year dt.month + dt.day

/-- Python date subtraction `(a - b).days`: the ordinal difference. -/
def dateSub (a b : CalDate) : Int :=
  (toOrdinal a : Int) - (toOrdinal b : Int)

/-! ## The date parser (`parse_date`, lines 18-25) -/

/-- The whitespace characters removed by Python `str.strip` (ASCII part). -/
def isSpace (c : Char) : Bool :=
  c = ' ' || c = '\t' || c = '\n' || c = '\r' || c = '\x0b' || c = '\x0c'

/-- ASCII decimal digit test (`\d` of the `_strptime` regexes). -/
def isDigit (c : Char) : Bool :=
  '0' ≤ c && c ≤ '9'

/-- Numeric value of a digit character. -/
def digitVal (c : Char) : Nat := c.toNat - 48

/-- Numeric value of a digit string. -/
def digitsVal (cs : List Char) : Nat :=
  cs.foldl (fun a c => 10 * a + digitVal c) 0

/-- Python `str.strip`: drop leading and trailing whitespace. -/
def pyStrip (cs : List Char) : List Char :=
  ((cs.dropWhile isSpace).reverse.dropWhile isSpace).reverse

/-- The `_strptime` token regex for `%d` (`3[01]|[12]\d|0[1-9]|[1-9]`) and
`%m` (`1[0-2]|0[1-9]|[1-9]`): one or two digits whose value is in
`1..hi`. -/
def numTokOK (hi : Nat) (cs : List Char) : Bool :=
  (cs.length = 1 || cs.length = 2) && 1 ≤ digitsVal cs && digitsVal cs ≤ hi

/-- The `date` constructor applied after a successful pattern match
(`datetime.strptime` raises `ValueError` on an invalid calendar date). -/
def mkValid (y m d : Nat) : Option CalDate :=
  if validDate ⟨y, m, d⟩ then some ⟨y, m, d⟩ else none

/-- The attempt `datetime.strptime(text, "%d.%m.%Y").date()`: day token, dot, month
token, dot, exactly four year digits, end of string; then calendar
validity. -/
def parseDMY (cs : List Char) : Option CalDate :=
  let d := cs.takeWhile isDigit
  match cs.dropWhile isDigit with
  | '.' :: r1 =>
    let m := r1.takeWhile isDigit
    match r1.dropWhile isDigit with
    | '.' :: r2 =>
      let y := r2.takeWhile isDigit
      if r2.dropWhile isDigit = [] && y.length = 4 &&
          numTokOK 31 d && numTokOK 12 m then
        mkValid (digitsVal y) (digitsVal m) (digitsVal d)
      else none
    | _ => none
  | _ => none

/-- The attempt `datetime.strptime(text, "%Y-%m-%d").date()`: exactly four year
digits, dash, month token, dash, day token, end of string; then calendar
validity. -/
def parseYMD (cs : List Char) : Option CalDate :=
  let y := cs.takeWhile isDigit
  match cs.dropWhile isDigit with
  | '-' :: r1 =>
    let m := r1.takeWhile isDigit
    match r1.dropWhile isDigit with
    | '-' :: r2 =>
      let d := r2.takeWhile isDigit
      if r2.dropWhile isDigit = [] && y.length = 4 &&
          numTokOK 12 m && numTokOK 31 d then
        mkValid (digitsVal y) (digitsVal m) (digitsVal d)
      else none
    | _ => none
  | _ => none

/-- The two formats of `parse_date`, in source order. -/
inductive Fmt where
  | dmy
  | ymd
deriving DecidableEq, Repr

/-- One `strptime` attempt of the `parse_date` loop. -/
def strptime : Fmt → List Char → Option CalDate
  | .dmy, cs => parseDMY cs
  | .ymd, cs => parseYMD cs

/-- The format list `("%d.%m.%Y", "%Y-%m-%d")` iterated by `parse_date`. -/
def formats : List Fmt := [.dmy, .ymd]

/-- The function `parse_date` (lines 18-25): strip the text, try each format in order,
return the first success, else `None`. -/
def parse_date (text : String) : Option CalDate :=
  formats.findSome? (fun f => strptime f (pyStrip text.data))

/-! ## `strftime` date formatting -/

/-- A single decimal digit character. -/
def digitChar (n : Nat) : Char := Char.ofNat (48 + n)

/-- Zero-padded two-digit rendering (`%d`, `%m`) of `n < 100`. -/
def pad2 (n : Nat) : List Char := [digitChar (n / 10), digitChar (n % 10)]

/-- Zero-padded four-digit rendering (`%Y`) of `n < 10000`. -/
def pad4 (n : Nat) : List Char :=
  [digitChar (n / 1000), digitChar (n / 100 % 10), digitChar (n / 10 % 10),
    digitChar (n % 10)]

/-- The expression `target_date.strftime('%d.%m.%Y')` (line 54). -/
def formatDMY (dt : CalDate) : String :=
  String.mk (pad2 dt.day ++ '.' :: pad2 dt.month ++ '.' :: pad4 dt.year)

/-! ## The biorhythm engine (`calc_biorhythm`, lines 28-46) -/

/-- Python `round(x, 2)` idealised over the reals: the nearest whole number
of hundredths. -/
noncomputable def round2 (x : ℝ) : ℝ :=
  ((round (100 * x) : ℤ) : ℝ) / 100

/-- One cycle value: `round(sin(2π·days/period)·100, 2)` (lines 44-45). -/
noncomputable def cycleValue (days : ℤ) (period : ℕ) : ℝ :=
  round2 (Real.sin (2 * Real.pi * (days : ℝ) / (period : ℝ)) * 100)

/-- The reading returned by `calc_biorhythm`: exactly the three values
`physical`, `emotional`, `intellectual`. -/
structure BioReading where
  physical : ℝ
  emotional : ℝ
  intellectual : ℝ

/-- The engine `calc_biorhythm(birth_date, target_date)` (lines 28-46): day count by
date subtraction, `ValueError` when it is negative, otherwise the three
cycle values with periods 23, 28, 33. -/
noncomputable def calc_biorhythm (birth target : CalDate) :
    Except String BioReading :=
  let days := dateSub target birth
  if days < 0 then .error "Target date is before birth date"
  else .ok ⟨cycleValue days 23, cycleValue days 28, cycleValue days 33⟩

/-! ## The renderer (`format_bio_text`, lines 49-58)

The engine only ever hands the renderer floats that are whole hundredths in
`[-100, 100]`, so the rendered values are embedded as integers counting
hundredths. -/

/-- A reading as stored, in hundredths: `2550` stands for the float
`25.5`. -/
structure BioCenti where
  physical : ℤ
  emotional : ℤ
  intellectual : ℤ
deriving DecidableEq, Repr

/-- Decimal digit characters of a natural number, most significant first;
`fuel` bounds the recursion depth. -/
def natDigitsCore : Nat → Nat → List Char
  | 0, _ => []
  | fuel + 1, n =>
    if n < 10 then [digitChar n]
    else natDigitsCore fuel (n / 10) ++ [digitChar (n % 10)]

/-- Decimal digit characters of a natural number, most significant
first. -/
def natDigits (n : Nat) : List Char := natDigitsCore (n + 1) n

/-- Decimal digits of the fractional part that Python `str` prints for the
two-decimal float `f/100` (`f < 100`): trailing zero dropped, but never
empty. -/
def fracStr (f : Nat) : List Char :=
  if f % 10 = 0 then natDigits (f / 10)
  else if f < 10 then '0' :: natDigits f
  else natDigits f

/-- Python `str` of the two-decimal float `k/100` (shortest round-trip
representation, as produced by the f-strings of `format_bio_text`). -/
def pyFloatRepr (k : ℤ) : String :=
  String.mk ((if k < 0 then ['-'] else []) ++
    natDigits (k.natAbs / 100) ++ '.' :: fracStr (k.natAbs % 100))

/-- The inner `sign` helper (lines 50-51): prefix `+` to strictly positive
values, print everything else as-is. -/
def sign (v : ℤ) : String :=
  if 0 < v then "+" ++ pyFloatRepr v else pyFloatRepr v

/-- The renderer `format_bio_text(target_date, bio)` (lines 49-58). -/
def format_bio_text (t : CalDate) (bio : BioCenti) : String :=
  "Биоритмы на " ++ formatDMY t ++ "\n" ++
    "Физический: " ++ sign bio.physical ++ "%" ++ "\n" ++
    "Эмоциональный: " ++ sign bio.emotional ++ "%" ++ "\n" ++
    "Интеллектуальный: " ++ sign bio.intellectual ++ "%"

/-! ## The command handlers (`today`, `on_date`, `cancel`) -/

/-- The reply "Я ещё не знаю твою дату рождения. Отправь /start и введи её."
(lines 105-107 and 118-120, the identical text in both handlers). -/
def noBirthDateMsg : String :=
  "Я ещё не знаю твою дату рождения. Отправь /start и введи её."

/-- The reply "Использование: /on YYYY-MM-DD, например /on 2025-12-31." (line 125). -/
def usageMsg : String :=
  "Использование: /on YYYY-MM-DD, например /on 2025-12-31."

/-- The retry hint for a malformed `/on` argument (lines 133-134). -/
def badDateMsg : String :=
  "Не получилось распознать дату. Используй формат YYYY-MM-DD, например 2025-12-31."

/-- The reply "Дата для расчёта не может быть раньше даты рождения." (line 143). -/
def beforeBirthMsg : String :=
  "Дата для расчёта не может быть раньше даты рождения."

/-- The confirmation sent by `cancel` (lines 161-163). -/
def cancelMsg : String :=
  "Окей, отменяем ввод даты рождения. Можешь начать заново командой /start."

/-- The single reply a handler sends: either a fixed message or the
rendered report for a target date. -/
inductive Reply where
  | msg (text : String)
  | report (target : CalDate)
deriving DecidableEq, Repr

/-- The `today` handler (lines 102-112) restricted to its session effect:
reads the stored birth date, never writes it. -/
def today (dob : Option CalDate) : Option CalDate × Reply :=
  match dob with
  | none => (none, .msg noBirthDateMsg)
  | some b => (some b, .report b)

/-- The `on_date` handler (lines 115-147). The session state is the stored
birth date (`context.user_data["dob"]`), the input is `context.args`. The
final branch inlines the `ValueError` condition of `calc_biorhythm`, which
is exactly `days < 0` (the sole raise on lines 33-34). The handler
never writes `user_data`. -/
def on_date (dob : Option CalDate) (args : List String) :
    Option CalDate × Reply :=
  match dob with
  | none => (none, .msg noBirthDateMsg)
  | some b =>
    match args with
    | [] => (some b, .msg usageMsg)
    | a :: _ =>
      match parseYMD a.data with
      | none => (some b, .msg badDateMsg)
      | some t =>
        if dateSub t b < 0 then (some b, .msg beforeBirthMsg)
        else (some b, .report t)

/-- Per-user conversational session: the stored birth date plus whether the
`ConversationHandler` is in its `ASK_DOB` state. -/
structure Session where
  dob : Option CalDate
  awaiting : Bool
deriving DecidableEq, Repr

/-- The `cancel` fallback (lines 160-164): sends the confirmation and
returns `ConversationHandler.END`, leaving `user_data` untouched. -/
def cancel (s : Session) : Session × String :=
  ({ s with awaiting := false }, cancelMsg)

/-! ## Engine lemmas -/

/-- Rounding with `round2` stays below `100` on inputs below `100`. -/
lemma round2_le_of_le {x : ℝ} (h : x ≤ 100) : round2 x ≤ 100 := by
  have h1 : ((round (100 * x) : ℤ) : ℝ) ≤ 100 * x + 1 / 2 := round_le_add_half _
  have h2 : ((round (100 * x) : ℤ) : ℝ) < 10001 := by linarith
  have h3 : round (100 * x) < (10001 : ℤ) := by exact_mod_cast h2
  have h4 : round (100 * x) ≤ (10000 : ℤ) := by omega
  have h5 : ((round (100 * x) : ℤ) : ℝ) ≤ ((10000 : ℤ) : ℝ) := by exact_mod_cast h4
  unfold round2
  rw [div_le_iff₀ (by norm_num : (0:ℝ) < 100)]
  push_cast at h5 ⊢
  linarith

/-- Rounding with `round2` stays above `-100` on inputs above `-100`. -/
lemma neg_le_round2 {x : ℝ} (h : -100 ≤ x) : -100 ≤ round2 x := by
  have h1 : 100 * x - 1 / 2 < ((round (100 * x) : ℤ) : ℝ) := sub_half_lt_round _
  have h2 : (-10001 : ℝ) < ((round (100 * x) : ℤ) : ℝ) := by linarith
  have h3 : (-10001 : ℤ) < round (100 * x) := by exact_mod_cast h2
  have h4 : (-10000 : ℤ) ≤ round (100 * x) := by omega
  have h5 : ((-10000 : ℤ) : ℝ) ≤ ((round (100 * x) : ℤ) : ℝ) := by exact_mod_cast h4
  unfold round2
  rw [le_div_iff₀ (by norm_num : (0:ℝ) < 100)]
  push_cast at h5 ⊢
  linarith

/-- Idempotence of `round2`: a whole number of hundredths rounds to
itself. -/
lemma round2_idem (x : ℝ) : round2 (round2 x) = round2 x := by
  unfold round2
  rw [mul_comm, div_mul_cancel₀ _ (by norm_num : (100:ℝ) ≠ 0), round_intCast]

/-- Every cycle value lies in `[-100, 100]` and is a fixed point of
`round2`. -/
lemma cycleValue_mem (n : ℤ) (p : ℕ) :
    -100 ≤ cycleValue n p ∧ cycleValue n p ≤ 100 ∧
      round2 (cycleValue n p) = cycleValue n p := by
  have hs1 : Real.sin (2 * Real.pi * (n : ℝ) / (p : ℝ)) * 100 ≤ 100 := by
    nlinarith [Real.sin_le_one (2 * Real.pi * (n : ℝ) / (p : ℝ))]
  have hs2 : -100 ≤ Real.sin (2 * Real.pi * (n : ℝ) / (p : ℝ)) * 100 := by
    nlinarith [Real.neg_one_le_sin (2 * Real.pi * (n : ℝ) / (p : ℝ))]
  exact ⟨neg_le_round2 hs2, round2_le_of_le hs1, round2_idem _⟩

/-- Advancing the day count by the cycle's own period leaves the cycle
value unchanged. -/
lemma cycleValue_period (n : ℤ) (p : ℕ) (hp : p ≠ 0) :
    cycleValue (n + (p : ℤ)) p = cycleValue n p := by
  have hpr : (p : ℝ) ≠ 0 := Nat.cast_ne_zero.mpr hp
  unfold cycleValue
  have harg : 2 * Real.pi * (((n + (p : ℤ) : ℤ)) : ℝ) / (p : ℝ) =
      2 * Real.pi * (n : ℝ) / (p : ℝ) + 2 * Real.pi := by
    push_cast
    field_simp
    ring
  rw [harg, Real.sin_add_two_pi]

/-! ## Claim theorems: the engine -/

/-- C1: `calc_biorhythm` fails exactly when the day count
`targetDate - birthDate` is strictly negative — its only error
condition — and for every `targetDate ≥ birthDate` it returns a
reading. -/
theorem calc_biorhythm_error_iff (b t : CalDate) :
    ((∃ e, calc_biorhythm b t = .error e) ↔ dateSub t b < 0) ∧
      (0 ≤ dateSub t b → ∃ r, calc_biorhythm b t = .ok r) := by
  constructor
  · constructor
    · rintro ⟨e, he⟩
      by_contra hn
      simp [calc_biorhythm, hn] at he
    · intro hlt
      exact ⟨"Target date is before birth date", by simp [calc_biorhythm, hlt]⟩
  · intro h0
    refine ⟨⟨cycleValue (dateSub t b) 23, cycleValue (dateSub t b) 28,
      cycleValue (dateSub t b) 33⟩, ?_⟩
    simp [calc_biorhythm, show ¬dateSub t b < 0 by omega]

/-- Witness for C1 at the concrete pair 1990-03-05 / 2025-12-31. -/
theorem calc_biorhythm_error_iff_witness :
    ∃ r, calc_biorhythm ⟨1990, 3, 5⟩ ⟨2025, 12, 31⟩ = .ok r :=
  (calc_biorhythm_error_iff ⟨1990, 3, 5⟩ ⟨2025, 12, 31⟩).2 (by decide)

/-- C2: for `targetDate ≥ birthDate` the engine returns exactly the three
values physical, emotional, intellectual, each in `[-100, 100]` and each a
fixed point of rounding to two decimals. -/
theorem calc_biorhythm_ok_bounds (b t : CalDate) (h : 0 ≤ dateSub t b) :
    ∃ r : BioReading, calc_biorhythm b t = .ok r ∧
      (-100 ≤ r.physical ∧ r.physical ≤ 100 ∧ round2 r.physical = r.physical) ∧
      (-100 ≤ r.emotional ∧ r.emotional ≤ 100 ∧ round2 r.emotional = r.emotional) ∧
      (-100 ≤ r.intellectual ∧ r.intellectual ≤ 100 ∧
        round2 r.intellectual = r.intellectual) := by
  refine ⟨⟨cycleValue (dateSub t b) 23, cycleValue (dateSub t b) 28,
    cycleValue (dateSub t b) 33⟩, ?_, ?_, ?_, ?_⟩
  · simp [calc_biorhythm, not_lt.mpr h]
  · obtain ⟨h1, h2, h3⟩ := cycleValue_mem (dateSub t b) 23
    exact ⟨h1, h2, h3⟩
  · obtain ⟨h1, h2, h3⟩ := cycleValue_mem (dateSub t b) 28
    exact ⟨h1, h2, h3⟩
  · obtain ⟨h1, h2, h3⟩ := cycleValue_mem (dateSub t b) 33
    exact ⟨h1, h2, h3⟩

/-- Witness for C2 at the concrete pair 1990-03-05 / 2025-12-31. -/
theorem calc_biorhythm_ok_bounds_witness :
    ∃ r : BioReading,
      calc_biorhythm ⟨1990, 3, 5⟩ ⟨2025, 12, 31⟩ = .ok r ∧
      (-100 ≤ r.physical ∧ r.physical ≤ 100 ∧ round2 r.physical = r.physical) ∧
      (-100 ≤ r.emotional ∧ r.emotional ≤ 100 ∧ round2 r.emotional = r.emotional) ∧
      (-100 ≤ r.intellectual ∧ r.intellectual ≤ 100 ∧
        round2 r.intellectual = r.intellectual) :=
  calc_biorhythm_ok_bounds ⟨1990, 3, 5⟩ ⟨2025, 12, 31⟩ (by decide)

/-- C5: on the birth date itself the engine succeeds with the all-zero
reading. -/
theorem calc_biorhythm_at_birth (b : CalDate) :
    calc_biorhythm b b = .ok ⟨0, 0, 0⟩ := by
  have hds : dateSub b b = 0 := sub_self _
  have hcv : ∀ p : ℕ, cycleValue 0 p = 0 := by
    intro p
    unfold cycleValue round2
    norm_num [Real.sin_zero]
  simp [calc_biorhythm, hds, hcv 23, hcv 28, hcv 33]

/-- C4: each component is periodic in its own period: advancing the target
by 23 days preserves the physical value, by 28 the emotional, by 33 the
intellectual. -/
theorem calc_biorhythm_periodic (b t t23 t28 t33 : CalDate)
    (h : 0 ≤ dateSub t b)
    (h23 : dateSub t23 b = dateSub t b + 23)
    (h28 : dateSub t28 b = dateSub t b + 28)
    (h33 : dateSub t33 b = dateSub t b + 33) :
    ∃ r r23 r28 r33 : BioReading,
      calc_biorhythm b t = .ok r ∧ calc_biorhythm b t23 = .ok r23 ∧
      calc_biorhythm b t28 = .ok r28 ∧ calc_biorhythm b t33 = .ok r33 ∧
      r23.physical = r.physical ∧ r28.emotional = r.emotional ∧
      r33.intellectual = r.intellectual := by
  have hn : ¬dateSub t b < 0 := by omega
  have n23 : ¬dateSub t23 b < 0 := by omega
  have n28 : ¬dateSub t28 b < 0 := by omega
  have n33 : ¬dateSub t33 b < 0 := by omega
  refine ⟨⟨cycleValue (dateSub t b) 23, cycleValue (dateSub t b) 28,
      cycleValue (dateSub t b) 33⟩,
    ⟨cycleValue (dateSub t23 b) 23, cycleValue (dateSub t23 b) 28,
      cycleValue (dateSub t23 b) 33⟩,
    ⟨cycleValue (dateSub t28 b) 23, cycleValue (dateSub t28 b) 28,
      cycleValue (dateSub t28 b) 33⟩,
    ⟨cycleValue (dateSub t33 b) 23, cycleValue (dateSub t33 b) 28,
      cycleValue (dateSub t33 b) 33⟩,
    by simp [calc_biorhythm, hn], by simp [calc_biorhythm, n23],
    by simp [calc_biorhythm, n28], by simp [calc_biorhythm, n33], ?_, ?_, ?_⟩
  · show cycleValue (dateSub t23 b) 23 = cycleValue (dateSub t b) 23
    rw [h23, show ((23 : ℤ)) = ((23 : ℕ) : ℤ) by norm_num]
    exact cycleValue_period (dateSub t b) 23 (by norm_num)
  · show cycleValue (dateSub t28 b) 28 = cycleValue (dateSub t b) 28
    rw [h28, show ((28 : ℤ)) = ((28 : ℕ) : ℤ) by norm_num]
    exact cycleValue_period (dateSub t b) 28 (by norm_num)
  · show cycleValue (dateSub t33 b) 33 = cycleValue (dateSub t b) 33
    rw [h33, show ((33 : ℤ)) = ((33 : ℕ) : ℤ) by norm_num]
    exact cycleValue_period (dateSub t b) 33 (by norm_num)

/-- Witness for C4: birth 2020-01-01, target 2020-01-11, and targets
advanced by exactly 23, 28 and 33 days. -/
theorem calc_biorhythm_periodic_witness :
    ∃ r r23 r28 r33 : BioReading,
      calc_biorhythm ⟨2020, 1, 1⟩ ⟨2020, 1, 11⟩ = .ok r ∧
      calc_biorhythm ⟨2020, 1, 1⟩ ⟨2020, 2, 3⟩ = .ok r23 ∧
      calc_biorhythm ⟨2020, 1, 1⟩ ⟨2020, 2, 8⟩ = .ok r28 ∧
      calc_biorhythm ⟨2020, 1, 1⟩ ⟨2020, 2, 13⟩ = .ok r33 ∧
      r23.physical = r.physical ∧ r28.emotional = r.emotional ∧
      r33.intellectual = r.intellectual :=
  calc_biorhythm_periodic ⟨2020, 1, 1⟩ ⟨2020, 1, 11⟩ ⟨2020, 2, 3⟩
    ⟨2020, 2, 8⟩ ⟨2020, 2, 13⟩ (by decide) (by decide) (by decide) (by decide)

/-! ## Renderer lemmas -/

/-- With positive fuel, a digit rendering starts with a decimal digit
character. -/
lemma natDigitsCore_head (fuel n : Nat) (hf : 0 < fuel) :
    ∃ k, k < 10 ∧ (natDigitsCore fuel n).head? = some (digitChar k) := by
  induction fuel generalizing n with
  | zero => omega
  | succ f ih =>
    rw [natDigitsCore]
    by_cases h : n < 10
    · exact ⟨n, h, by simp [h]⟩
    · rw [if_neg h]
      match hf2 : f with
      | 0 =>
        exact ⟨n % 10, Nat.mod_lt _ (by omega), by simp [natDigitsCore]⟩
      | f' + 1 =>
        obtain ⟨k, hk, hh⟩ := ih (n := n / 10) (by omega)
        refine ⟨k, hk, ?_⟩
        rw [List.head?_append, hh]
        rfl

/-- A digit rendering starts with a decimal digit character. -/
lemma natDigits_head (n : Nat) :
    ∃ k, k < 10 ∧ (natDigits n).head? = some (digitChar k) :=
  natDigitsCore_head (n + 1) n (by omega)

/-- No decimal digit character is the plus sign. -/
lemma digitChar_ne_plus {k : Nat} (hk : k < 10) : digitChar k ≠ '+' := by
  interval_cases k <;> decide

/-- The printed value of a float never starts with `+`: it starts with a
minus sign or a digit. -/
lemma pyFloatRepr_head_ne_plus (v : ℤ) :
    (pyFloatRepr v).data.head? ≠ some '+' := by
  unfold pyFloatRepr
  obtain ⟨k, hk, hh⟩ := natDigits_head (v.natAbs / 100)
  by_cases hv : v < 0
  · simp [hv]
  · simp only [hv, if_false]
    show (([] ++ natDigits (v.natAbs / 100) ++
      '.' :: fracStr (v.natAbs % 100)).head? ≠ some '+')
    rw [List.nil_append, List.head?_append, hh]
    simp only [Option.or_some]
    intro hc
    exact digitChar_ne_plus hk (by injection hc)

/-! ## Claim theorems: renderer and handlers -/

/-- C7: `format_bio_text` is the fixed template — a header naming the
target date in day.month.year form, then one labeled line per cycle — and
each printed value carries a `+` prefix exactly when it is strictly
positive, and is printed as-is when it is zero or negative. -/
theorem format_bio_text_spec (t : CalDate) (bio : BioCenti) :
    format_bio_text t bio =
      "Биоритмы на " ++ formatDMY t ++ "\n" ++
        "Физический: " ++ sign bio.physical ++ "%" ++ "\n" ++
        "Эмоциональный: " ++ sign bio.emotional ++ "%" ++ "\n" ++
        "Интеллектуальный: " ++ sign bio.intellectual ++ "%" ∧
    (∀ v : ℤ, 0 < v → sign v = "+" ++ pyFloatRepr v) ∧
    (∀ v : ℤ, v ≤ 0 → sign v = pyFloatRepr v) ∧
    (∀ v : ℤ, (sign v).data.head? = some '+' ↔ 0 < v) := by
  refine ⟨rfl, fun v hv => by simp [sign, hv],
    fun v hv => by simp [sign, not_lt.mpr hv], fun v => ?_⟩
  constructor
  · intro hh
    by_contra hn
    rw [sign, if_neg hn] at hh
    exact pyFloatRepr_head_ne_plus v hh
  · intro hv
    rw [sign, if_pos hv, String.data_append]
    rfl

/-- Witness for C7: the strictly positive stored value `25.50` is rendered
with an explicit plus sign. -/
theorem format_bio_text_spec_witness : sign 2550 = "+" ++ pyFloatRepr 2550 :=
  (format_bio_text_spec ⟨2025, 12, 31⟩ ⟨0, 2550, -4975⟩).2.1 2550 (by decide)

/-- C9: the `cancel` fallback replies with its confirmation, leaves the
conversation (`awaiting` becomes false), and never touches the stored
birth date: a previously known birth date survives, so the session is
`READY` with the old date. -/
theorem cancel_preserves_dob (s : Session) :
    (cancel s).1.dob = s.dob ∧ (cancel s).2 = cancelMsg ∧
      (cancel s).1.awaiting = false ∧
      (∀ b : CalDate, s.dob = some b → (cancel s).1 = ⟨some b, false⟩) := by
  refine ⟨rfl, rfl, rfl, fun b hb => ?_⟩
  simp [cancel, hb]

/-- Witness for C9: cancelling mid-onboarding with birth date 1990-03-05
already stored returns to `READY` with that date intact. -/
theorem cancel_preserves_dob_witness :
    (cancel ⟨some ⟨1990, 3, 5⟩, true⟩).1 = ⟨some ⟨1990, 3, 5⟩, false⟩ :=
  (cancel_preserves_dob ⟨some ⟨1990, 3, 5⟩, true⟩).2.2.2 ⟨1990, 3, 5⟩ rfl

/-- C10: the renderer prints the shortest decimal form of the rounded
value, not a fixed two-decimal format: the stored values `0.00` and
`25.50` — both fixed points of two-decimal rounding — are rendered as
`0.0%` and `+25.5%`, with a single digit after the decimal point. -/
theorem render_shortest_repr :
    sign 0 = "0.0" ∧ sign 2550 = "+25.5" ∧
      round2 0 = 0 ∧ round2 (255 / 10 : ℝ) = 255 / 10 ∧
      format_bio_text ⟨2025, 12, 31⟩ ⟨0, 2550, -4975⟩ =
        "Биоритмы на 31.12.2025\n" ++
          "Физический: 0.0%\n" ++
          "Эмоциональный: +25.5%\n" ++
          "Интеллектуальный: -49.75%" := by
  refine ⟨by decide, by decide, ?_, ?_, by decide⟩
  · unfold round2
    norm_num
  · unfold round2
    rw [show (100 : ℝ) * (255 / 10) = ((2550 : ℤ) : ℝ) by norm_num, round_intCast]
    norm_num

/-- C8 counterexample: with no birth date stored and the date argument
missing, the handler replies with the onboarding prompt — the birth-date
check runs first — not with the usage-error reply the claim assigns to
every missing argument. -/
theorem on_date_missing_arg_counterexample :
    on_date none [] = (none, .msg noBirthDateMsg) ∧
      Reply.msg noBirthDateMsg ≠ Reply.msg usageMsg := by
  exact ⟨rfl, by decide⟩

/-- C8 (amended): `on_date` checks the stored birth date first and replies
with the same onboarding prompt as the `today` query when none is known;
with a birth date known it classifies the input as missing argument,
argument not in `YYYY-MM-DD` form, target before birth, or a rendered
reading — and in every case the stored birth date is unchanged. -/
theorem on_date_classification (dob : Option CalDate) (args : List String) :
    (on_date dob args).1 = dob ∧
    (dob = none → (on_date dob args).2 = .msg noBirthDateMsg ∧
      (today none).2 = .msg noBirthDateMsg) ∧
    (∀ b, dob = some b → args = [] → (on_date dob args).2 = .msg usageMsg) ∧
    (∀ b a rest, dob = some b → args = a :: rest → parseYMD a.data = none →
      (on_date dob args).2 = .msg badDateMsg) ∧
    (∀ b a rest t, dob = some b → args = a :: rest → parseYMD a.data = some t →
      dateSub t b < 0 → (on_date dob args).2 = .msg beforeBirthMsg) ∧
    (∀ b a rest t, dob = some b → args = a :: rest → parseYMD a.data = some t →
      0 ≤ dateSub t b → (on_date dob args).2 = .report t) := by
  refine ⟨?_, ?_, ?_, ?_, ?_, ?_⟩
  · cases dob with
    | none => rfl
    | some b =>
      cases args with
      | nil => rfl
      | cons a rest =>
        cases h : parseYMD a.data with
        | none => simp [on_date, h]
        | some t => by_cases hlt : dateSub t b < 0 <;> simp [on_date, h, hlt]
  · rintro rfl
    exact ⟨rfl, rfl⟩
  · rintro b rfl rfl
    rfl
  · rintro b a rest rfl rfl h
    simp [on_date, h]
  · rintro b a rest t rfl rfl h hlt
    simp [on_date, h, hlt]
  · rintro b a rest t rfl rfl h hge
    simp [on_date, h, show ¬dateSub t b < 0 by omega]

/-- Witness for C8 (amended): `/on 1980-01-01` with birth date 1990-03-05
gets the specific target-before-birth explanation. -/
theorem on_date_classification_witness :
    (on_date (some ⟨1990, 3, 5⟩) ["1980-01-01"]).2 = .msg beforeBirthMsg :=
  (on_date_classification (some ⟨1990, 3, 5⟩) ["1980-01-01"]).2.2.2.2.1
    ⟨1990, 3, 5⟩ "1980-01-01" [] ⟨1980, 1, 1⟩ rfl rfl (by decide) (by decide)

/-! ## Parser lemmas -/

/-- A successful constructor call means the date was calendrically
valid. -/
lemma mkValid_valid {y m d : Nat} {dt : CalDate}
    (h : mkValid y m d = some dt) : validDate dt = true := by
  unfold mkValid at h
  split at h
  · cases h
    assumption
  · cases h

/-- Every date produced by the `%d.%m.%Y` attempt is calendrically
valid. -/
lemma parseDMY_valid {cs : List Char} {dt : CalDate}
    (h : parseDMY cs = some dt) : validDate dt = true := by
  unfold parseDMY at h
  split at h
  · split at h
    · dsimp only at h
      split at h
      · exact mkValid_valid h
      · cases h
    · cases h
  · cases h

/-- Every date produced by the `%Y-%m-%d` attempt is calendrically
valid. -/
lemma parseYMD_valid {cs : List Char} {dt : CalDate}
    (h : parseYMD cs = some dt) : validDate dt = true := by
  unfold parseYMD at h
  split at h
  · split at h
    · dsimp only at h
      split at h
      · exact mkValid_valid h
      · cases h
    · cases h
  · cases h

/-- C3: `parse_date` succeeds exactly when one of the two `strptime`
attempts succeeds on the whitespace-trimmed input — `%d.%m.%Y` first,
`%Y-%m-%d` only when the first fails — and every date it returns is
calendrically valid. -/
theorem parse_date_spec (s : String) :
    (∀ dt : CalDate, parse_date s = some dt ↔
      (strptime .dmy (pyStrip s.data) = some dt ∨
        (strptime .dmy (pyStrip s.data) = none ∧
          strptime .ymd (pyStrip s.data) = some dt))) ∧
    (∀ dt : CalDate, parse_date s = some dt → validDate dt = true) := by
  constructor
  · intro dt
    cases h1 : strptime .dmy (pyStrip s.data) with
    | none =>
      cases h2 : strptime .ymd (pyStrip s.data) with
      | none => simp [parse_date, formats, List.findSome?, h1, h2]
      | some t => simp [parse_date, formats, List.findSome?, h1, h2]
    | some t => simp [parse_date, formats, List.findSome?, h1]
  · intro dt hd
    cases h1 : strptime .dmy (pyStrip s.data) with
    | none =>
      cases h2 : strptime .ymd (pyStrip s.data) with
      | none => simp [parse_date, formats, List.findSome?, h1, h2] at hd
      | some t =>
        simp [parse_date, formats, List.findSome?, h1, h2] at hd
        exact hd ▸ parseYMD_valid h2
    | some t =>
      simp [parse_date, formats, List.findSome?, h1] at hd
      exact hd ▸ parseDMY_valid h1

/-- Witness for C3: `"31.12.2020"` parses via the first format to a
calendrically valid date. -/
theorem parse_date_spec_witness : validDate ⟨2020, 12, 31⟩ = true :=
  (parse_date_spec "31.12.2020").2 ⟨2020, 12, 31⟩ (by decide)

/-- Every month has at most 31 days. -/
lemma daysInMonth_le (y m : Nat) : daysInMonth y m ≤ 31 := by
  unfold daysInMonth
  split
  · split <;> omega
  · split <;> omega

/-- Digit characters pass the digit test. -/
lemma digitChar_isDigit {n : Nat} (h : n < 10) : isDigit (digitChar n) = true := by
  interval_cases n <;> decide

/-- Digit characters are not whitespace. -/
lemma digitChar_not_space {n : Nat} (h : n < 10) :
    isSpace (digitChar n) = false := by
  interval_cases n <;> decide

/-- The value map `digitVal` inverts `digitChar` on single digits. -/
lemma digitVal_digitChar {n : Nat} (h : n < 10) : digitVal (digitChar n) = n := by
  interval_cases n <;> decide

/-- Dropping whitespace keeps a list whose characters are all non-whitespace. -/
lemma dropWhile_no_space {cs : List Char} (h : ∀ c ∈ cs, isSpace c = false) :
    cs.dropWhile isSpace = cs := by
  cases cs with
  | nil => rfl
  | cons a t => simp [List.dropWhile_cons, h a (by simp)]

/-- Stripping a string of non-whitespace characters changes nothing. -/
lemma pyStrip_no_space {cs : List Char} (h : ∀ c ∈ cs, isSpace c = false) :
    pyStrip cs = cs := by
  unfold pyStrip
  rw [dropWhile_no_space h,
    dropWhile_no_space (fun c hc => h c (List.mem_reverse.mp hc)),
    List.reverse_reverse]

/-- Value of a two-digit token. -/
lemma digitsVal_pair {a b : Nat} (ha : a < 10) (hb : b < 10) :
    digitsVal [digitChar a, digitChar b] = 10 * a + b := by
  simp [digitsVal, digitVal_digitChar ha, digitVal_digitChar hb]

/-- Value of the four-digit year token. -/
lemma digitsVal_pad4 {y : Nat} (hy : y < 10000) : digitsVal (pad4 y) = y := by
  unfold pad4
  simp [digitsVal, digitVal_digitChar (show y / 1000 < 10 by omega),
    digitVal_digitChar (show y / 100 % 10 < 10 by omega),
    digitVal_digitChar (show y / 10 % 10 < 10 by omega),
    digitVal_digitChar (show y % 10 < 10 by omega)]
  omega

/-- The `%d.%m.%Y` attempt inverts `strftime('%d.%m.%Y')` on every
constructor-valid date. -/
lemma parseDMY_format {y m d : Nat} (hy1 : 1 ≤ y) (hy2 : y ≤ 9999)
    (hm1 : 1 ≤ m) (hm2 : m ≤ 12) (hd1 : 1 ≤ d) (hd2 : d ≤ daysInMonth y m) :
    parseDMY (pad2 d ++ '.' :: pad2 m ++ '.' :: pad4 y) = some ⟨y, m, d⟩ := by
  have hd100 : d < 100 := by
    have := daysInMonth_le y m
    omega
  have t1 : isDigit (digitChar (d / 10)) = true := digitChar_isDigit (by omega)
  have t2 : isDigit (digitChar (d % 10)) = true := digitChar_isDigit (by omega)
  have t3 : isDigit (digitChar (m / 10)) = true := digitChar_isDigit (by omega)
  have t4 : isDigit (digitChar (m % 10)) = true := digitChar_isDigit (by omega)
  have t5 : isDigit (digitChar (y / 1000)) = true := digitChar_isDigit (by omega)
  have t6 : isDigit (digitChar (y / 100 % 10)) = true := digitChar_isDigit (by omega)
  have t7 : isDigit (digitChar (y / 10 % 10)) = true := digitChar_isDigit (by omega)
  have t8 : isDigit (digitChar (y % 10)) = true := digitChar_isDigit (by omega)
  have tdot : isDigit '.' = false := by decide
  have hvd : digitsVal [digitChar (d / 10), digitChar (d % 10)] = d := by
    rw [digitsVal_pair (by omega) (by omega)]
    omega
  have hvm : digitsVal [digitChar (m / 10), digitChar (m % 10)] = m := by
    rw [digitsVal_pair (by omega) (by omega)]
    omega
  have hvy : digitsVal (pad4 y) = y := digitsVal_pad4 (by omega)
  have hnd : numTokOK 31 [digitChar (d / 10), digitChar (d % 10)] = true := by
    simp [numTokOK, hvd]
    have := daysInMonth_le y m
    omega
  have hnm : numTokOK 12 [digitChar (m / 10), digitChar (m % 10)] = true := by
    simp [numTokOK, hvm]
    omega
  have hval : validDate ⟨y, m, d⟩ = true := by
    simp only [validDate, Bool.and_eq_true, decide_eq_true_eq]
    omega
  have hmk : mkValid y m d = some ⟨y, m, d⟩ := by
    unfold mkValid
    rw [if_pos hval]
  show parseDMY (digitChar (d / 10) :: digitChar (d % 10) :: '.' ::
    digitChar (m / 10) :: digitChar (m % 10) :: '.' :: pad4 y) = some ⟨y, m, d⟩
  unfold parseDMY pad4
  simp only [List.takeWhile_cons, List.dropWhile_cons, t1, t2, t3, t4, t5, t6,
    t7, t8, tdot, if_true, if_false, List.takeWhile_nil, List.dropWhile_nil,
    Bool.false_eq_true, Bool.true_eq_false, ite_true, ite_false]
  have hvy4 : digitsVal [digitChar (y / 1000), digitChar (y / 100 % 10),
      digitChar (y / 10 % 10), digitChar (y % 10)] = y := hvy
  simp [hvd, hvm, hvy4, hnd, hnm, hmk, numTokOK]
  have := daysInMonth_le y m
  omega

/-- No character of a formatted date is whitespace. -/
lemma formatDMY_no_space {y m d : Nat} (hd : d < 100) (hm : m < 100)
    (hy : y < 10000) :
    ∀ c ∈ (formatDMY ⟨y, m, d⟩).data, isSpace c = false := by
  intro c hc
  have hshape : (formatDMY ⟨y, m, d⟩).data =
      [digitChar (d / 10), digitChar (d % 10), '.', digitChar (m / 10),
        digitChar (m % 10), '.', digitChar (y / 1000), digitChar (y / 100 % 10),
        digitChar (y / 10 % 10), digitChar (y % 10)] := rfl
  rw [hshape] at hc
  simp only [List.mem_cons, List.not_mem_nil, or_false] at hc
  rcases hc with rfl | rfl | rfl | rfl | rfl | rfl | rfl | rfl | rfl | rfl
  · exact digitChar_not_space (by omega)
  · exact digitChar_not_space (by omega)
  · decide
  · exact digitChar_not_space (by omega)
  · exact digitChar_not_space (by omega)
  · decide
  · exact digitChar_not_space (by omega)
  · exact digitChar_not_space (by omega)
  · exact digitChar_not_space (by omega)
  · exact digitChar_not_space (by omega)

/-- Parsing a formatted valid date gives that date back. -/
lemma parse_date_formatDMY {dt : CalDate} (hv : validDate dt = true) :
    parse_date (formatDMY dt) = some dt := by
  obtain ⟨y, m, d⟩ := dt
  simp only [validDate, Bool.and_eq_true, decide_eq_true_eq] at hv
  obtain ⟨⟨⟨⟨⟨hy1, hy2⟩, hm1⟩, hm2⟩, hd1⟩, hd2⟩ := hv
  have hd100 : d < 100 := by
    have := daysInMonth_le y m
    omega
  have hstrip : pyStrip (formatDMY ⟨y, m, d⟩).data = (formatDMY ⟨y, m, d⟩).data :=
    pyStrip_no_space (formatDMY_no_space hd100 (by omega) (by omega))
  have hdmy : parseDMY (formatDMY ⟨y, m, d⟩).data = some ⟨y, m, d⟩ :=
    parseDMY_format hy1 hy2 hm1 hm2 hd1 hd2
  unfold parse_date formats
  rw [hstrip]
  simp [List.findSome?, strptime, hdmy]

/-- C6: parsing a date written in the `DD.MM.YYYY` pattern and
reformatting it reproduces the original string, and the calendrically
invalid `"31.02.2020"` is rejected outright, not clamped. -/
theorem parse_format_roundtrip :
    (∀ dt : CalDate, validDate dt = true →
      Option.map formatDMY (parse_date (formatDMY dt)) = some (formatDMY dt)) ∧
    parse_date "31.02.2020" = none := by
  constructor
  · intro dt hv
    rw [parse_date_formatDMY hv]
    rfl
  · decide

/-- Witness for C6: the round trip at 05.03.1990. -/
theorem parse_format_roundtrip_witness :
    Option.map formatDMY (parse_date (formatDMY ⟨1990, 3, 5⟩)) =
      some (formatDMY ⟨1990, 3, 5⟩) :=
  parse_format_roundtrip.1 ⟨1990, 3, 5⟩ (by decide)
